import Mathlib

/-!
Verification of the Chladni interactive-poster particle simulation
(src/sketch.js) against its natural-language specification.

The JavaScript core is shallowly embedded: JS numbers become real numbers
for the geometric/field computations (which use cosines and square roots)
and rational numbers for the purely affine sonification maps; the p5
vector type becomes a two-field structure; the globals read by a tick
(current time, scatter timestamp, pattern-forming flag, mode numbers, the
random unit vector drawn this tick) become an explicit environment record
passed to the per-particle behavior function.
-/

-- Configuration constants (src/sketch.js lines 2-18)
noncomputable def CANVAS_WIDTH : ℝ := 1080
noncomputable def CANVAS_HEIGHT : ℝ := 1350
def NUM_PARTICLES : ℕ := 9000
noncomputable def L_CHLADNI_SCALE : ℝ := CANVAS_WIDTH / 3
noncomputable def SCATTER_DURATION : ℝ := 500

-- Per-particle constants from the Particle constructor (lines 60-61);
-- identical for every particle, so lifted to top-level constants.
noncomputable def maxSpeed : ℝ := 2.5
noncomputable def maxForce : ℝ := 0.4

-- Behavior-policy constants (lines 100-101)
noncomputable def tolerance : ℝ := 0.03
noncomputable def checkDistance : ℝ := 2

/-- The p5 map helper: linear interpolation of v from the range a..b onto
the range c..d, without clamping. Polymorphic so it serves both the real
geometry and the rational sonification maps. -/
def map {α : Type} [Field α] (v a b c d : α) : α :=
  (v - a) / (b - a) * (d - c) + c

/-- The chladni field function (lines 49-53). -/
noncomputable def chladni (x y m_val n_val : ℝ) : ℝ :=
  Real.cos (n_val * Real.pi * x / L_CHLADNI_SCALE) *
    Real.cos (m_val * Real.pi * y / L_CHLADNI_SCALE) -
  Real.cos (m_val * Real.pi * x / L_CHLADNI_SCALE) *
    Real.cos (n_val * Real.pi * y / L_CHLADNI_SCALE)

-- Two-dimensional vectors, embedding the p5.Vector operations the sketch
-- uses: add, scalar mult, magSq, mag, normalize, limit.

@[ext]
structure Vec where
  x : ℝ
  y : ℝ

noncomputable def Vec.zero : Vec := ⟨0, 0⟩

noncomputable def Vec.add (v w : Vec) : Vec := ⟨v.x + w.x, v.y + w.y⟩

noncomputable def Vec.scale (c : ℝ) (v : Vec) : Vec := ⟨c * v.x, c * v.y⟩

noncomputable def Vec.magSq (v : Vec) : ℝ := v.x * v.x + v.y * v.y

noncomputable def Vec.mag (v : Vec) : ℝ := Real.sqrt v.magSq

/-- The p5 normalize: scale to unit length unless the length is zero. -/
noncomputable def Vec.normalize (v : Vec) : Vec :=
  if v.mag = 0 then v else Vec.scale (1 / v.mag) v

/-- The p5 limit: if the squared magnitude exceeds the square of the bound,
divide by the magnitude and multiply by the bound. -/
noncomputable def Vec.limit (v : Vec) (m : ℝ) : Vec :=
  if v.magSq > m * m then Vec.scale (m / Real.sqrt v.magSq) v else v

lemma Vec.magSq_nonneg (v : Vec) : 0 ≤ v.magSq :=
  add_nonneg (mul_self_nonneg _) (mul_self_nonneg _)

lemma Vec.mag_nonneg (v : Vec) : 0 ≤ v.mag := Real.sqrt_nonneg _

lemma Vec.mag_scale (c : ℝ) (v : Vec) : (Vec.scale c v).mag = |c| * v.mag := by
  unfold Vec.mag Vec.magSq Vec.scale
  rw [show c * v.x * (c * v.x) + c * v.y * (c * v.y)
        = c ^ 2 * (v.x * v.x + v.y * v.y) by ring]
  rw [Real.sqrt_mul (sq_nonneg c), Real.sqrt_sq_eq_abs]

lemma Vec.mag_normalize (v : Vec) (h : v.mag ≠ 0) : (Vec.normalize v).mag = 1 := by
  unfold Vec.normalize
  rw [if_neg h, Vec.mag_scale,
    abs_of_nonneg (one_div_nonneg.mpr v.mag_nonneg), one_div_mul_cancel h]

lemma Vec.mag_limit_le (v : Vec) (m : ℝ) (hm : 0 ≤ m) :
    (Vec.limit v m).mag ≤ m := by
  unfold Vec.limit
  split_ifs with h
  · have hs : 0 < v.magSq := lt_of_le_of_lt (mul_self_nonneg m) h
    have hsq : 0 < Real.sqrt v.magSq := Real.sqrt_pos.mpr hs
    rw [Vec.mag_scale, abs_of_nonneg (div_nonneg hm hsq.le)]
    unfold Vec.mag
    rw [div_mul_cancel₀ _ (ne_of_gt hsq)]
  · unfold Vec.mag
    calc Real.sqrt v.magSq ≤ Real.sqrt (m * m) := Real.sqrt_le_sqrt (not_lt.mp h)
    _ = m := Real.sqrt_mul_self hm

/-- C7: the chladni field function is antisymmetric under swapping the two
mode numbers. -/
theorem chladni_mode_swap_antisym (x y m n : ℝ) :
    chladni x y m n = -chladni x y n m := by
  unfold chladni
  ring

-- Particle state (constructor, lines 56-64). The color field is a fixed
-- constant for every particle and plays no role in the dynamics, so it is
-- omitted; maxSpeed and maxForce are the top-level constants above.

structure Particle where
  pos : Vec
  vel : Vec
  acc : Vec
  isSettled : Bool

/-- The tick environment: the globals and the library calls a single
behave() invocation reads. now models millis(); rand2D models the unit
vector p5.Vector.random2D() returns this tick. -/
structure Env where
  now : ℝ
  lastScatterTime : ℝ
  forming : Bool
  m : ℝ
  n : ℝ
  rand2D : Vec

/-- getChladniValue (lines 66-70): rescale canvas coordinates to the
symmetric field domain and take the absolute field value. The mode numbers
are the stableM and stableN globals, passed explicitly. -/
noncomputable def getChladniValue (m n x_coord y_coord : ℝ) : ℝ :=
  |chladni (map x_coord 0 CANVAS_WIDTH (-L_CHLADNI_SCALE) L_CHLADNI_SCALE)
           (map y_coord 0 CANVAS_HEIGHT (-L_CHLADNI_SCALE) L_CHLADNI_SCALE) m n|

/-- applyForce (line 72): accumulate into acceleration. -/
noncomputable def applyForce (p : Particle) (force : Vec) : Particle :=
  { p with acc := Vec.add p.acc force }

/-- One boundary coordinate after update() applied its two wraparound
checks in order: first x < 0 sends the coordinate to w, then x > w sends
it to 0 (lines 81-84, one axis). -/
noncomputable def wrapCoord (x w : ℝ) : ℝ :=
  let x1 := if x < 0 then w else x
  if x1 > w then 0 else x1

noncomputable def wrapCanvas (q : Vec) : Vec :=
  ⟨wrapCoord q.x CANVAS_WIDTH, wrapCoord q.y CANVAS_HEIGHT⟩

/-- update (lines 74-85): velocity += acceleration, limit to maxSpeed,
position += velocity, acceleration *= 0, then wrap both position axes. -/
noncomputable def Particle.update (p : Particle) : Particle :=
  { pos := wrapCanvas (Vec.add p.pos (Vec.limit (Vec.add p.vel p.acc) maxSpeed)),
    vel := Vec.limit (Vec.add p.vel p.acc) maxSpeed,
    acc := Vec.scale 0 p.acc,
    isSettled := p.isSettled }

/-- The scatter branch of behave (lines 89-95): random impulse scaled by
0.8, velocity damped by 0.9, integrate, then clear the settled flag. -/
noncomputable def scatterStep (e : Env) (p : Particle) : Particle :=
  let p1 := applyForce p (Vec.scale 0.8 e.rand2D)
  let p2 : Particle := { p1 with vel := Vec.scale 0.9 p1.vel }
  { Particle.update p2 with isSettled := false }

/-- The settle branch (lines 103-106): damp velocity by 0.8, clear the
acceleration, mark settled, then integrate. -/
noncomputable def settleStep (p : Particle) : Particle :=
  Particle.update
    { p with vel := Vec.scale 0.8 p.vel, acc := Vec.scale 0 p.acc, isSettled := true }

/-- The four-comparison steering accumulation (lines 109-118), written as
the same sequential chain of conditional component updates as the source. -/
noncomputable def steerChain (rightVal leftVal downVal upVal chladniVal : ℝ) : Vec :=
  let s0 : Vec := ⟨0, 0⟩
  let s1 : Vec := if rightVal < chladniVal then ⟨s0.x + 1, s0.y⟩
    else if rightVal > chladniVal then ⟨s0.x - 1, s0.y⟩ else s0
  let s2 : Vec := if leftVal < chladniVal then ⟨s1.x - 1, s1.y⟩
    else if leftVal > chladniVal then ⟨s1.x + 1, s1.y⟩ else s1
  let s3 : Vec := if downVal < chladniVal then ⟨s2.x, s2.y + 1⟩
    else if downVal > chladniVal then ⟨s2.x, s2.y - 1⟩ else s2
  let s4 : Vec := if upVal < chladniVal then ⟨s3.x, s3.y - 1⟩
    else if upVal > chladniVal then ⟨s3.x, s3.y + 1⟩ else s3
  s4

/-- The gradient-descent branch (lines 108-127): sample the field at the
four axis neighbors, accumulate the steering vote, apply either the
normalized maxForce steering or the tiny random impulse, damp velocity by
0.98, clear the settled flag, then integrate. -/
noncomputable def descendStep (e : Env) (p : Particle) : Particle :=
  let chladniVal := getChladniValue e.m e.n p.pos.x p.pos.y
  let rightVal := getChladniValue e.m e.n (p.pos.x + checkDistance) p.pos.y
  let leftVal := getChladniValue e.m e.n (p.pos.x - checkDistance) p.pos.y
  let downVal := getChladniValue e.m e.n p.pos.x (p.pos.y + checkDistance)
  let upVal := getChladniValue e.m e.n p.pos.x (p.pos.y - checkDistance)
  let steerForce := steerChain rightVal leftVal downVal upVal chladniVal
  let p1 :=
    if Vec.mag steerForce > 0 then
      applyForce p (Vec.scale maxForce (Vec.normalize steerForce))
    else
      applyForce p (Vec.scale 0.01 e.rand2D)
  Particle.update { p1 with vel := Vec.scale 0.98 p1.vel, isSettled := false }

/-- The forming branch dispatch (lines 98-129): settle when the local
field magnitude is below tolerance, otherwise descend. -/
noncomputable def formingStep (e : Env) (p : Particle) : Particle :=
  if getChladniValue e.m e.n p.pos.x p.pos.y < tolerance then settleStep p
  else descendStep e p

/-- behave (lines 87-131): scatter wins while the scatter window is open,
otherwise the forming flag selects between the pattern logic and a bare
integration step. -/
noncomputable def behave (e : Env) (p : Particle) : Particle :=
  if e.now < e.lastScatterTime + SCATTER_DURATION then scatterStep e p
  else if e.forming then formingStep e p
  else Particle.update p

lemma update_isSettled (p : Particle) :
    (Particle.update p).isSettled = p.isSettled := rfl

lemma scatterStep_isSettled (e : Env) (p : Particle) :
    (scatterStep e p).isSettled = false := rfl

lemma settleStep_isSettled (p : Particle) :
    (settleStep p).isSettled = true := rfl

lemma descendStep_isSettled (e : Env) (p : Particle) :
    (descendStep e p).isSettled = false := by
  simp only [descendStep]
  split_ifs <;> rfl

lemma behave_coast (e : Env) (p : Particle)
    (h1 : ¬ e.now < e.lastScatterTime + SCATTER_DURATION)
    (h2 : e.forming = false) : behave e p = Particle.update p := by
  unfold behave
  rw [if_neg h1, h2]
  simp

lemma wrapCoord_high (x w : ℝ) (hw : 0 ≤ w) (hx : x > w) : wrapCoord x w = 0 := by
  simp only [wrapCoord]
  rw [if_neg (by linarith : ¬ x < 0), if_pos hx]

lemma wrapCoord_low (x w : ℝ) (hx : x < 0) : wrapCoord x w = w := by
  simp only [wrapCoord]
  rw [if_pos hx, if_neg (lt_irrefl w)]

lemma wrapCoord_mid (x w : ℝ) (h0 : 0 ≤ x) (h1 : x ≤ w) : wrapCoord x w = x := by
  simp only [wrapCoord]
  rw [if_neg (not_lt.mpr h0), if_neg (not_lt.mpr h1)]

/-- C5: update() performs exactly the integration sequence velocity +=
acceleration, clamp the velocity magnitude to 2.5, position += velocity,
reset acceleration to zero; and each position component that exits the
canvas wraps to the opposite edge of its axis, a component above the upper
bound reappearing at exactly 0 and one below 0 reappearing at the far
edge, while an in-range component is left untouched. -/
theorem update_spec (p : Particle) :
    (Particle.update p).vel = Vec.limit (Vec.add p.vel p.acc) maxSpeed ∧
    Vec.mag (Particle.update p).vel ≤ maxSpeed ∧
    (Particle.update p).acc = Vec.zero ∧
    (Particle.update p).isSettled = p.isSettled ∧
    ((Vec.add p.pos (Vec.limit (Vec.add p.vel p.acc) maxSpeed)).x > CANVAS_WIDTH →
      (Particle.update p).pos.x = 0) ∧
    ((Vec.add p.pos (Vec.limit (Vec.add p.vel p.acc) maxSpeed)).x < 0 →
      (Particle.update p).pos.x = CANVAS_WIDTH) ∧
    (0 ≤ (Vec.add p.pos (Vec.limit (Vec.add p.vel p.acc) maxSpeed)).x →
      (Vec.add p.pos (Vec.limit (Vec.add p.vel p.acc) maxSpeed)).x ≤ CANVAS_WIDTH →
      (Particle.update p).pos.x
        = (Vec.add p.pos (Vec.limit (Vec.add p.vel p.acc) maxSpeed)).x) ∧
    ((Vec.add p.pos (Vec.limit (Vec.add p.vel p.acc) maxSpeed)).y > CANVAS_HEIGHT →
      (Particle.update p).pos.y = 0) ∧
    ((Vec.add p.pos (Vec.limit (Vec.add p.vel p.acc) maxSpeed)).y < 0 →
      (Particle.update p).pos.y = CANVAS_HEIGHT) ∧
    (0 ≤ (Vec.add p.pos (Vec.limit (Vec.add p.vel p.acc) maxSpeed)).y →
      (Vec.add p.pos (Vec.limit (Vec.add p.vel p.acc) maxSpeed)).y ≤ CANVAS_HEIGHT →
      (Particle.update p).pos.y
        = (Vec.add p.pos (Vec.limit (Vec.add p.vel p.acc) maxSpeed)).y) := by
  refine ⟨rfl, ?_, ?_, rfl, ?_, ?_, ?_, ?_, ?_, ?_⟩
  · exact Vec.mag_limit_le _ _ (by norm_num [maxSpeed])
  · simp [Particle.update, Vec.scale, Vec.zero]
  · intro h
    exact wrapCoord_high _ _ (by norm_num [CANVAS_WIDTH]) h
  · intro h
    exact wrapCoord_low _ _ h
  · intro h0 h1
    exact wrapCoord_mid _ _ h0 h1
  · intro h
    exact wrapCoord_high _ _ (by norm_num [CANVAS_HEIGHT]) h
  · intro h
    exact wrapCoord_low _ _ h
  · intro h0 h1
    exact wrapCoord_mid _ _ h0 h1

/-- Witness for C5: a particle carried past the right canvas edge by its
velocity reappears at x = 0. -/
theorem update_spec_witness :
    (Particle.update ⟨⟨1080, 675⟩, ⟨2, 0⟩, ⟨0, 0⟩, false⟩).pos.x = 0 :=
  (update_spec ⟨⟨1080, 675⟩, ⟨2, 0⟩, ⟨0, 0⟩, false⟩).2.2.2.2.1 (by
    simp only [Vec.add, Vec.limit, Vec.magSq, maxSpeed, CANVAS_WIDTH]
    norm_num)

/-- One neighbor comparison of the descending branch, phrased as in the
spec: a unit component toward a strictly lower neighbor magnitude, a unit
component away from a strictly higher one, nothing on a tie. -/
noncomputable def vote (neighbor current : ℝ) : ℝ :=
  if neighbor < current then 1 else if neighbor > current then -1 else 0

set_option maxHeartbeats 1000000 in
lemma steerChain_eq_vote (r l d u c : ℝ) :
    steerChain r l d u c = ⟨vote r c - vote l c, vote d c - vote u c⟩ := by
  simp only [steerChain, vote]
  split_ifs <;> (apply Vec.ext) <;> dsimp only <;> ring

/-- The accumulated four-way steering vote of the descending branch, in
the two-comparisons-per-axis form the spec describes. -/
noncomputable def specSteer (e : Env) (p : Particle) : Vec :=
  ⟨vote (getChladniValue e.m e.n (p.pos.x + checkDistance) p.pos.y)
      (getChladniValue e.m e.n p.pos.x p.pos.y)
    - vote (getChladniValue e.m e.n (p.pos.x - checkDistance) p.pos.y)
      (getChladniValue e.m e.n p.pos.x p.pos.y),
   vote (getChladniValue e.m e.n p.pos.x (p.pos.y + checkDistance))
      (getChladniValue e.m e.n p.pos.x p.pos.y)
    - vote (getChladniValue e.m e.n p.pos.x (p.pos.y - checkDistance))
      (getChladniValue e.m e.n p.pos.x p.pos.y)⟩

/-- The force the descending branch applies: the steering vote normalized
and scaled to maxForce when nonzero, else the tiny random impulse. -/
noncomputable def descendForce (e : Env) (p : Particle) : Vec :=
  if Vec.mag (specSteer e p) > 0 then Vec.scale maxForce (Vec.normalize (specSteer e p))
  else Vec.scale 0.01 e.rand2D

lemma behave_descend (e : Env) (p : Particle)
    (h1 : ¬ e.now < e.lastScatterTime + SCATTER_DURATION)
    (h2 : e.forming = true)
    (h3 : ¬ getChladniValue e.m e.n p.pos.x p.pos.y < tolerance) :
    behave e p = descendStep e p := by
  unfold behave formingStep
  rw [if_neg h1, h2]
  simp only [if_true]
  rw [if_neg h3]

/-- C6: on a tick outside the scatter window with the forming flag set and
the local field magnitude at or above tolerance, behave is exactly the
descending branch: it damps velocity by 0.98, clears the settled flag, and
adds to the acceleration the four-way per-axis steering vote normalized to
magnitude 0.4 when the vote is nonzero, or the 0.01-scaled random impulse
when the vote vanishes. -/
theorem descend_spec (e : Env) (p : Particle)
    (h1 : ¬ e.now < e.lastScatterTime + SCATTER_DURATION)
    (h2 : e.forming = true)
    (h3 : ¬ getChladniValue e.m e.n p.pos.x p.pos.y < tolerance) :
    behave e p = Particle.update
      { p with acc := Vec.add p.acc (descendForce e p),
               vel := Vec.scale 0.98 p.vel, isSettled := false } ∧
    (Vec.mag (specSteer e p) > 0 → Vec.mag (descendForce e p) = maxForce) ∧
    (¬ Vec.mag (specSteer e p) > 0 → descendForce e p = Vec.scale 0.01 e.rand2D) ∧
    (behave e p).isSettled = false := by
  refine ⟨?_, ?_, ?_, ?_⟩
  · rw [behave_descend e p h1 h2 h3]
    have key : steerChain (getChladniValue e.m e.n (p.pos.x + checkDistance) p.pos.y)
        (getChladniValue e.m e.n (p.pos.x - checkDistance) p.pos.y)
        (getChladniValue e.m e.n p.pos.x (p.pos.y + checkDistance))
        (getChladniValue e.m e.n p.pos.x (p.pos.y - checkDistance))
        (getChladniValue e.m e.n p.pos.x p.pos.y) = specSteer e p := by
      rw [steerChain_eq_vote]; rfl
    simp only [descendStep, applyForce, key, descendForce]
    split_ifs with h <;> rfl
  · intro h
    unfold descendForce
    rw [if_pos h, Vec.mag_scale, Vec.mag_normalize _ (ne_of_gt h),
      abs_of_nonneg (by norm_num [maxForce] : (0:ℝ) ≤ maxForce), mul_one]
  · intro h
    unfold descendForce
    rw [if_neg h]
  · rw [behave_descend e p h1 h2 h3, descendStep_isSettled]

lemma map_x_center : map (540 : ℝ) 0 CANVAS_WIDTH (-L_CHLADNI_SCALE) L_CHLADNI_SCALE = 0 := by
  simp only [map, L_CHLADNI_SCALE, CANVAS_WIDTH]
  norm_num

lemma map_y_center : map (675 : ℝ) 0 CANVAS_HEIGHT (-L_CHLADNI_SCALE) L_CHLADNI_SCALE = 0 := by
  simp only [map, L_CHLADNI_SCALE, CANVAS_HEIGHT, CANVAS_WIDTH]
  norm_num

/-- At the canvas center the scaled coordinates are the field origin, where
the chladni field vanishes for every mode pair. -/
lemma getChladniValue_center (m n : ℝ) : getChladniValue m n 540 675 = 0 := by
  unfold getChladniValue
  rw [map_x_center, map_y_center]
  unfold chladni
  rw [show n * Real.pi * 0 / L_CHLADNI_SCALE = 0 by ring,
    show m * Real.pi * 0 / L_CHLADNI_SCALE = 0 by ring, Real.cos_zero]
  norm_num

/-- A concrete off-node field sample: for modes (1,2) at canvas point
(810, 675) the scaled coordinates are (180, 0) and the field magnitude is
exactly 1. -/
lemma getChladniValue_off_node : getChladniValue 1 2 810 675 = 1 := by
  have hx : map (810 : ℝ) 0 CANVAS_WIDTH (-L_CHLADNI_SCALE) L_CHLADNI_SCALE = 180 := by
    simp only [map, L_CHLADNI_SCALE, CANVAS_WIDTH]
    norm_num
  unfold getChladniValue
  rw [hx, map_y_center]
  unfold chladni L_CHLADNI_SCALE CANVAS_WIDTH
  rw [show (2 : ℝ) * Real.pi * 180 / (1080 / 3) = Real.pi by ring,
    show (1 : ℝ) * Real.pi * 180 / (1080 / 3) = Real.pi / 2 by ring,
    show (2 : ℝ) * Real.pi * 0 / (1080 / 3) = 0 by ring,
    show (1 : ℝ) * Real.pi * 0 / (1080 / 3) = 0 by ring,
    Real.cos_pi, Real.cos_pi_div_two, Real.cos_zero]
  norm_num

/-- Witness for C6: a tick after the scatter window with the forming flag
set, at a point of field magnitude 1, runs the descending branch and
leaves the particle not settled. -/
theorem descend_spec_witness :
    (behave ⟨600, 0, true, 1, 2, ⟨1, 0⟩⟩
      ⟨⟨810, 675⟩, ⟨0, 0⟩, ⟨0, 0⟩, false⟩).isSettled = false :=
  (descend_spec ⟨600, 0, true, 1, 2, ⟨1, 0⟩⟩ ⟨⟨810, 675⟩, ⟨0, 0⟩, ⟨0, 0⟩, false⟩
    (by norm_num [SCATTER_DURATION]) rfl
    (by
      show ¬ getChladniValue 1 2 810 675 < tolerance
      rw [getChladniValue_off_node]
      norm_num [tolerance])).2.2.2

/-- C1 (amended): while the current time lies in the 500 ms scatter window
every tick runs the scattering branch, which clears the settled flag and
ignores the field entirely (the mode numbers are irrelevant to the
result); once the window has expired the trigger has also left the
pattern-forming flag false, so behave performs only the bare motion
integration with no residual forced impulse, and the gradient-descent and
settle logic runs again only when the forming flag is set true by external
input. -/
theorem scatter_window_spec (e : Env) (p : Particle) :
    (e.now < e.lastScatterTime + SCATTER_DURATION →
      (behave e p).isSettled = false ∧
      behave e p = scatterStep e p ∧
      ∀ m2 n2 : ℝ, behave { e with m := m2, n := n2 } p = behave e p) ∧
    (¬ e.now < e.lastScatterTime + SCATTER_DURATION → e.forming = false →
      behave e p = Particle.update p ∧ (behave e p).isSettled = p.isSettled) ∧
    (¬ e.now < e.lastScatterTime + SCATTER_DURATION → e.forming = true →
      behave e p = formingStep e p) := by
  refine ⟨fun h => ⟨?_, ?_, ?_⟩, fun h hf => ⟨?_, ?_⟩, fun h hf => ?_⟩
  · unfold behave
    rw [if_pos h, scatterStep_isSettled]
  · unfold behave
    rw [if_pos h]
  · intro m2 n2
    show behave (Env.mk e.now e.lastScatterTime e.forming m2 n2 e.rand2D) p = behave e p
    unfold behave scatterStep applyForce
    dsimp only
    rw [if_pos h, if_pos h]
  · exact behave_coast e p h hf
  · rw [behave_coast e p h hf, update_isSettled]
  · unfold behave
    rw [if_neg h, hf]
    simp

/-- Witness for C1: a particle currently settled has its settled flag
cleared by the next tick inside the scatter window. -/
theorem scatter_window_spec_witness :
    (behave ⟨100, 0, false, 1, 1, ⟨1, 0⟩⟩
      ⟨⟨0, 0⟩, ⟨0, 0⟩, ⟨0, 0⟩, true⟩).isSettled = false :=
  ((scatter_window_spec ⟨100, 0, false, 1, 1, ⟨1, 0⟩⟩ ⟨⟨0, 0⟩, ⟨0, 0⟩, ⟨0, 0⟩, true⟩).1
    (by show (100 : ℝ) < 0 + SCATTER_DURATION; norm_num [SCATTER_DURATION])).1

/-- Counterexample to C1 as stated: on the first tick after the window
expires the trigger has left the forming flag false, so a particle at the
canvas center merely integrates its motion and stays unsettled, whereas
the gradient-descent/settle logic the claim promises would settle it; the
reversion therefore does require further external input. -/
theorem scatter_no_revert_counterexample :
    behave ⟨600, 0, false, 1, 1, ⟨1, 0⟩⟩ ⟨⟨540, 675⟩, ⟨0, 0⟩, ⟨0, 0⟩, false⟩ =
      Particle.update ⟨⟨540, 675⟩, ⟨0, 0⟩, ⟨0, 0⟩, false⟩ ∧
    (behave ⟨600, 0, false, 1, 1, ⟨1, 0⟩⟩
      ⟨⟨540, 675⟩, ⟨0, 0⟩, ⟨0, 0⟩, false⟩).isSettled = false ∧
    (formingStep ⟨600, 0, true, 1, 1, ⟨1, 0⟩⟩
      ⟨⟨540, 675⟩, ⟨0, 0⟩, ⟨0, 0⟩, false⟩).isSettled = true := by
  have hw : ¬ (600 : ℝ) < 0 + SCATTER_DURATION := by norm_num [SCATTER_DURATION]
  refine ⟨behave_coast _ _ hw rfl, ?_, ?_⟩
  · rw [behave_coast _ _ hw rfl]
    rfl
  · unfold formingStep
    dsimp only
    rw [getChladniValue_center]
    rw [if_pos (by norm_num [tolerance] : (0 : ℝ) < tolerance)]
    rfl

/-- C10: outside the scatter window with the forming flag false, behave
applies no force and performs only the motion integration step: the
settled flag is preserved, a zero acceleration stays zero, and over any
run of such ticks the settled flag never changes, so the particle coasts
until external input flips the flag. -/
theorem coast_spec (e : Env) (p : Particle) (es : List Env)
    (h1 : ¬ e.now < e.lastScatterTime + SCATTER_DURATION)
    (h2 : e.forming = false)
    (hs : ∀ e2 ∈ es, ¬ e2.now < e2.lastScatterTime + SCATTER_DURATION ∧
      e2.forming = false) :
    behave e p = Particle.update p ∧
    (behave e p).isSettled = p.isSettled ∧
    (p.acc = Vec.zero → (behave e p).acc = p.acc) ∧
    (List.foldl (fun q e2 => behave e2 q) p es).isSettled = p.isSettled := by
  have hstep : ∀ (e2 : Env) (q : Particle),
      ¬ e2.now < e2.lastScatterTime + SCATTER_DURATION → e2.forming = false →
      (behave e2 q).isSettled = q.isSettled := by
    intro e2 q ha hb
    rw [behave_coast e2 q ha hb, update_isSettled]
  refine ⟨behave_coast e p h1 h2, hstep e p h1 h2, ?_, ?_⟩
  · intro hacc
    rw [behave_coast e p h1 h2]
    show Vec.scale 0 p.acc = p.acc
    rw [hacc]
    show Vec.scale 0 Vec.zero = Vec.zero
    simp [Vec.scale, Vec.zero]
  · have key : ∀ (l : List Env),
        (∀ e2 ∈ l, ¬ e2.now < e2.lastScatterTime + SCATTER_DURATION ∧
          e2.forming = false) →
        ∀ q : Particle,
          (List.foldl (fun q e2 => behave e2 q) q l).isSettled = q.isSettled := by
      intro l
      induction l with
      | nil => intro _ q; rfl
      | cons a t ih =>
        intro hl q
        have ha := hl a (by simp)
        have ht : ∀ e2 ∈ t, ¬ e2.now < e2.lastScatterTime + SCATTER_DURATION ∧
            e2.forming = false :=
          fun e2 he => hl e2 (List.mem_cons_of_mem a he)
        rw [List.foldl_cons, ih ht (behave a q), hstep a q ha.1 ha.2]
    exact key es hs p

/-- Witness for C10: a post-scatter tick with the forming flag false is
exactly a bare motion-integration step. -/
theorem coast_spec_witness :
    behave ⟨700, 0, false, 3, 4, ⟨0, 1⟩⟩ ⟨⟨10, 20⟩, ⟨1, 1⟩, ⟨0, 0⟩, true⟩ =
      Particle.update ⟨⟨10, 20⟩, ⟨1, 1⟩, ⟨0, 0⟩, true⟩ :=
  (coast_spec ⟨700, 0, false, 3, 4, ⟨0, 1⟩⟩ ⟨⟨10, 20⟩, ⟨1, 1⟩, ⟨0, 0⟩, true⟩ []
    (by show ¬ (700 : ℝ) < 0 + SCATTER_DURATION; norm_num [SCATTER_DURATION])
    rfl (by simp)).1

-- For C3 the particle is paired with a ghost record of the most recent
-- field-magnitude evaluation behave made at that particle's position: the
-- forming branch evaluates getChladniValue there (line 99) and no other
-- branch evaluates the field at the particle's own position.

/-- One behave tick extended with the ghost most-recent-evaluation value. -/
noncomputable def gstep (e : Env) (s : Particle × Option ℝ) : Particle × Option ℝ :=
  (behave e s.1,
   if e.now < e.lastScatterTime + SCATTER_DURATION then s.2
   else if e.forming then some (getChladniValue e.m e.n s.1.pos.x s.1.pos.y)
   else s.2)

/-- The settled flag is only ever true when the most recent field
evaluation at the particle's position came out below tolerance. -/
def settledInv (s : Particle × Option ℝ) : Prop :=
  s.1.isSettled = true → ∃ v, s.2 = some v ∧ v < tolerance

lemma settledInv_gstep (e : Env) (s : Particle × Option ℝ) (h : settledInv s) :
    settledInv (gstep e s) := by
  intro hset
  by_cases h1 : e.now < e.lastScatterTime + SCATTER_DURATION
  · exfalso
    have hfst : (gstep e s).1.isSettled = false := by
      show (behave e s.1).isSettled = false
      unfold behave
      rw [if_pos h1, scatterStep_isSettled]
    rw [hfst] at hset
    exact Bool.noConfusion hset
  · cases hf : e.forming with
    | false =>
      have hfst : (gstep e s).1.isSettled = s.1.isSettled := by
        show (behave e s.1).isSettled = s.1.isSettled
        rw [behave_coast e s.1 h1 hf, update_isSettled]
      have hsnd : (gstep e s).2 = s.2 := by
        show (if e.now < e.lastScatterTime + SCATTER_DURATION then s.2
          else if e.forming then some (getChladniValue e.m e.n s.1.pos.x s.1.pos.y)
          else s.2) = s.2
        rw [if_neg h1, hf]
        simp
      rw [hfst] at hset
      rw [hsnd]
      exact h hset
    | true =>
      have hsnd : (gstep e s).2
          = some (getChladniValue e.m e.n s.1.pos.x s.1.pos.y) := by
        show (if e.now < e.lastScatterTime + SCATTER_DURATION then s.2
          else if e.forming then some (getChladniValue e.m e.n s.1.pos.x s.1.pos.y)
          else s.2) = _
        rw [if_neg h1, hf]
        simp
      by_cases h3 : getChladniValue e.m e.n s.1.pos.x s.1.pos.y < tolerance
      · exact ⟨_, hsnd, h3⟩
      · exfalso
        have hfst : (gstep e s).1.isSettled = false := by
          show (behave e s.1).isSettled = false
          rw [behave_descend e s.1 h1 hf h3, descendStep_isSettled]
        rw [hfst] at hset
        exact Bool.noConfusion hset

/-- C3: starting from a particle created unsettled (as the constructor
does), after any sequence of ticks the settled flag being true implies the
most recent field-magnitude evaluation at that particle's position was
below the 0.03 tolerance. -/
theorem settled_implies_low_field (es : List Env) (p0 : Particle)
    (h0 : p0.isSettled = false) :
    settledInv (List.foldl (fun s e => gstep e s) (p0, (none : Option ℝ)) es) := by
  have hbase : settledInv (p0, (none : Option ℝ)) := by
    intro hset
    rw [h0] at hset
    exact Bool.noConfusion hset
  have key : ∀ (l : List Env) (s : Particle × Option ℝ), settledInv s →
      settledInv (List.foldl (fun s e => gstep e s) s l) := by
    intro l
    induction l with
    | nil => intro s hs; exact hs
    | cons a t ih =>
      intro s hs
      rw [List.foldl_cons]
      exact ih (gstep a s) (settledInv_gstep a s hs)
  exact key es (p0, none) hbase

/-- Witness for C3, applied to a freshly constructed particle and the
empty tick sequence. -/
theorem settled_implies_low_field_witness :
    settledInv (List.foldl (fun s e => gstep e s)
      ((⟨⟨0, 0⟩, ⟨0, 0⟩, ⟨0, 0⟩, false⟩ : Particle), (none : Option ℝ)) []) :=
  settled_implies_low_field [] ⟨⟨0, 0⟩, ⟨0, 0⟩, ⟨0, 0⟩, false⟩ rfl

/-- The per-tick tally of the draw loop (lines 242-253): run behave on
every particle, then count the settled and the moving ones. -/
noncomputable def tallyCounts (e : Env) (ps : List Particle) : ℕ × ℕ :=
  ((ps.map (behave e)).countP (fun q => q.isSettled),
   (ps.map (behave e)).countP (fun q => !q.isSettled))

lemma countP_settled_partition (l : List Particle) :
    l.countP (fun q => q.isSettled) + l.countP (fun q => !q.isSettled) = l.length := by
  induction l with
  | nil => rfl
  | cons a t ih =>
    rw [List.countP_cons, List.countP_cons, List.length_cons]
    cases ha : a.isSettled <;> simp [ha] <;> omega

/-- C4: on every tick the settled count plus the moving count equals the
total number of particles, which behave never changes. -/
theorem tally_partition (e : Env) (ps : List Particle) :
    (tallyCounts e ps).1 + (tallyCounts e ps).2 = ps.length := by
  unfold tallyCounts
  rw [countP_settled_partition, List.length_map]

-- Sonification mapper (calculateFrequencyFromMN, lines 39-47, and the
-- audio-parameter computations of draw, lines 262-292). These are affine
-- maps and clamps on exact numbers, embedded over the rationals.

/-- The p5 constrain helper: clamp v into the closed range low..high. -/
def constrain {α : Type} [LinearOrder α] (v low high : α) : α :=
  max (min v high) low

/-- calculateFrequencyFromMN (lines 39-47). -/
def calculateFrequencyFromMN (m n : ℚ) : ℚ :=
  map (m * 1.2 + n * 1.2) 2 40 50 600

/-- Chaos-noise amplitude (line 264). -/
def movementAmp (moving : ℕ) : ℚ :=
  map (moving : ℚ) 0 (NUM_PARTICLES : ℚ) 0 0.05

/-- Chaos-noise filter cutoff (line 266). -/
def movementFilterFreq (moving : ℕ) : ℚ :=
  map (moving : ℚ) 0 (NUM_PARTICLES : ℚ) 100 800

/-- Overall settle amplitude (line 273). -/
def overallSettleAmp (settled : ℕ) : ℚ :=
  map (settled : ℚ) 0 (NUM_PARTICLES : ℚ) 0 0.4

/-- Amplitude sent to settle oscillator i (lines 287-288): the overall
settle amplitude, divided by 1.5 for every voice after the first, then
constrained into 0..0.4. -/
def oscAmp (settled i : ℕ) : ℚ :=
  constrain (overallSettleAmp settled / (if i = 0 then 1 else 1.5)) 0 0.4

/-- Counterexample to C2 as stated: at m = n = 1 the computed base
frequency is exactly 1060/19, roughly 55.8 Hz, which is more than 3 Hz
away from the 51.9 Hz the claim states. -/
theorem freq_mn_counterexample :
    calculateFrequencyFromMN 1 1 = 1060 / 19 ∧
    3 < |calculateFrequencyFromMN 1 1 - 519 / 10| := by
  constructor
  · norm_num [calculateFrequencyFromMN, map]
  · have h : calculateFrequencyFromMN 1 1 - 519 / 10 = 739 / 190 := by
      norm_num [calculateFrequencyFromMN, map]
    rw [h, abs_of_pos (by norm_num : (0 : ℚ) < 739 / 190)]
    norm_num

/-- C2 (amended): at m = n = 1 the base frequency is the linear map of the
complexity 2.4 from the range 2..40 onto 50..600, namely exactly 1060/19,
approximately 55.8 Hz. -/
theorem freq_mn_spec :
    calculateFrequencyFromMN 1 1 = map (12 / 5 : ℚ) 2 40 50 600 ∧
    calculateFrequencyFromMN 1 1 = 1060 / 19 ∧
    |calculateFrequencyFromMN 1 1 - 279 / 5| < 1 / 50 := by
  refine ⟨?_, ?_, ?_⟩
  · norm_num [calculateFrequencyFromMN, map]
  · norm_num [calculateFrequencyFromMN, map]
  · have h : calculateFrequencyFromMN 1 1 - 279 / 5 = -(1 / 95) := by
      norm_num [calculateFrequencyFromMN, map]
    rw [h, abs_neg, abs_of_pos (by norm_num : (0 : ℚ) < 1 / 95)]
    norm_num

/-- C8: the chaos-noise amplitude is the linear map of the moving count
over 0..9000 onto 0..0.05 and the filter cutoff is the linear map onto
100..800 Hz; the endpoints evaluate to 0, 0.05, 100 and 800. -/
theorem chaos_noise_spec (mc : ℕ) :
    movementAmp mc = 0.05 * (mc : ℚ) / 9000 ∧
    movementFilterFreq mc = 100 + (800 - 100) * (mc : ℚ) / 9000 ∧
    movementAmp 0 = 0 ∧
    movementAmp NUM_PARTICLES = 0.05 ∧
    movementFilterFreq 0 = 100 ∧
    movementFilterFreq NUM_PARTICLES = 800 := by
  refine ⟨?_, ?_, ?_, ?_, ?_, ?_⟩ <;>
    · norm_num [movementAmp, movementFilterFreq, map, NUM_PARTICLES]
      try ring

/-- C9: the overall settle amplitude is the linear map of the settled
count over 0..9000 onto 0..0.4; voice 1 receives it unchanged, voices 2-4
receive it divided by 1.5, every voice amplitude lies in 0..0.4, the
second voice never exceeds the first divided by 1.5, and the endpoints
evaluate to 0 and 0.4. -/
theorem settle_amp_spec (s : ℕ) (hs : s ≤ NUM_PARTICLES) :
    overallSettleAmp s = 0.4 * (s : ℚ) / 9000 ∧
    oscAmp s 0 = overallSettleAmp s ∧
    (∀ i, 1 ≤ i → oscAmp s i = overallSettleAmp s / 1.5) ∧
    (∀ i, 0 ≤ oscAmp s i ∧ oscAmp s i ≤ 0.4) ∧
    oscAmp s 1 ≤ oscAmp s 0 / 1.5 ∧
    overallSettleAmp 0 = 0 ∧
    overallSettleAmp NUM_PARTICLES = 0.4 := by
  have hs9 : s ≤ 9000 := hs
  have hsq : (s : ℚ) ≤ 9000 := by exact_mod_cast hs9
  have h0q : (0 : ℚ) ≤ (s : ℚ) := Nat.cast_nonneg s
  have hval : overallSettleAmp s = 0.4 * (s : ℚ) / 9000 := by
    norm_num [overallSettleAmp, map, NUM_PARTICLES]
    ring
  have hlow : 0 ≤ overallSettleAmp s := by
    rw [hval]
    positivity
  have hhigh : overallSettleAmp s ≤ 0.4 := by
    rw [hval]
    linarith
  have hvoice1 : oscAmp s 0 = overallSettleAmp s := by
    unfold oscAmp constrain
    rw [if_pos rfl, div_one, min_eq_left hhigh, max_eq_left hlow]
  have hvoice2 : ∀ i, 1 ≤ i → oscAmp s i = overallSettleAmp s / 1.5 := by
    intro i hi
    unfold oscAmp constrain
    have hd1 : overallSettleAmp s / 1.5 ≤ 0.4 := by
      rw [div_le_iff₀ (by norm_num : (0 : ℚ) < 1.5)]
      linarith
    have hd0 : (0 : ℚ) ≤ overallSettleAmp s / 1.5 :=
      div_nonneg hlow (by norm_num)
    rw [if_neg (by omega : ¬ i = 0), min_eq_left hd1, max_eq_left hd0]
  refine ⟨hval, hvoice1, hvoice2, ?_, ?_, ?_, ?_⟩
  · intro i
    unfold oscAmp constrain
    constructor
    · exact le_max_right _ _
    · exact max_le (le_trans (min_le_right _ _) le_rfl) (by norm_num)
  · rw [hvoice2 1 le_rfl, hvoice1]
  · norm_num [overallSettleAmp, map, NUM_PARTICLES]
  · norm_num [overallSettleAmp, map, NUM_PARTICLES]

/-- Witness for C9 at a half-settled population. -/
theorem settle_amp_spec_witness :
    overallSettleAmp 4500 = 0.4 * ((4500 : ℕ) : ℚ) / 9000 :=
  (settle_amp_spec 4500 (by norm_num [NUM_PARTICLES])).1
